import Mathlib

/-!
# Verification of the exponential-slider conversion library

Shallow embedding of `src/index.ts` over the real numbers.  JavaScript
numbers are modelled by `ℝ`; `Math.round` is modelled by Mathlib's `round`
(round half towards positive infinity, exactly JavaScript's tie policy);
`Math.min` / `Math.max` by `Min.min` / `Max.max`; `Math.sqrt` by
`Real.sqrt`; `Math.pow (x, 2)` by `x ^ 2`.

A second pair of definitions (`stepToModelChecked` / `modelToStepChecked`)
re-traces the very same code in the `Option` monad, returning `none`
exactly when a division whose divisor is zero is performed (the situation
that produces `NaN`/`Infinity` in JavaScript, where the main embedding's
`x / 0 = 0` convention would silently diverge from the source).
-/

namespace ExponentialSlider

noncomputable section

structure Bounds where
  min : ℝ
  max : ℝ

structure LinearConfig where
  maxLinear : ℝ
  linearPercent : ℝ

structure ResolvedConfig where
  steps : ℝ
  linearAbsolute : ℝ
  linearPercent : ℝ
  min : ℝ
  max : ℝ
  range : ℝ

/-- JavaScript's `Math.round` (round to nearest, ties towards `+∞`),
as a function `ℝ → ℝ`. -/
def jsRound (x : ℝ) : ℝ := ((round x : ℤ) : ℝ)

/-- `limitBounds` from `src/index.ts`:
`Math.min(Math.max(value, bounds.min), bounds.max)`. -/
def limitBounds (value : ℝ) (bounds : Bounds) : ℝ :=
  Min.min (Max.max value bounds.min) bounds.max

/-- `resolveConfig` from `src/index.ts`.  The optional `linear` argument is
an `Option`; `linear ||= {maxLinear: 0, linearPercent: 0}` is `Option.getD`
(a supplied object is always truthy in JavaScript). -/
def resolveConfig (steps : ℝ) (bounds : Bounds) (linear : Option LinearConfig) :
    ResolvedConfig :=
  let lin := linear.getD ⟨0, 0⟩
  let linearPercent := lin.linearPercent / 100
  let linearAbsolute := Min.min lin.maxLinear (jsRound (bounds.max * linearPercent))
  let max := if lin.linearPercent = 100 then lin.maxLinear else bounds.max
  { steps := steps
    linearAbsolute := linearAbsolute
    linearPercent := linearPercent
    min := bounds.min
    max := max
    range := max - bounds.min }

/-- `resolveConfig` as the specification words it (claim C4): an absent
linear argument is treated as `{maxLinear: 0, linearPercent: 0}`;
`linearPercent` is the input percentage divided by 100; `linearAbsolute` is
`min(maxLinear, round(bounds.max * linearPercent/100))`; `max` is
`maxLinear` exactly when the input `linearPercent` equals 100 and
`bounds.max` otherwise; `min` is `bounds.min`; `range` is
`max - bounds.min`; `steps` is copied through. -/
def resolveConfigSpec (steps : ℝ) (bounds : Bounds)
    (linear : Option LinearConfig) : ResolvedConfig :=
  let lin : LinearConfig :=
    match linear with
    | none => ⟨0, 0⟩
    | some l => l
  { steps := steps
    linearAbsolute :=
      Min.min lin.maxLinear (jsRound (bounds.max * (lin.linearPercent / 100)))
    linearPercent := lin.linearPercent / 100
    min := bounds.min
    max := if lin.linearPercent = 100 then lin.maxLinear else bounds.max
    range :=
      (if lin.linearPercent = 100 then lin.maxLinear else bounds.max) -
        bounds.min }

/-- `expRange` from `src/index.ts`:
`Math.pow(value / range, 2) * range + min` with `range = max - min`. -/
def expRange (value mn mx : ℝ) : ℝ :=
  let range := mx - mn
  (value / range) ^ 2 * range + mn

/-- `rootRange` from `src/index.ts`:
`Math.sqrt(Math.max(0, value - min) / range) * range` with `range = max - min`. -/
def rootRange (value mn mx : ℝ) : ℝ :=
  let range := mx - mn
  Real.sqrt (Max.max 0 (value - mn) / range) * range

/-- `stepToModelInternal` from `src/index.ts`. -/
def stepToModelInternal (step0 : ℝ) (config : ResolvedConfig) : ℝ :=
  let step := limitBounds step0 ⟨0, config.steps⟩
  let percent := step / config.steps
  if config.linearAbsolute ≥ config.max then
    percent * config.range + config.min
  else if percent ≤ config.linearPercent then
    (if config.linearPercent > 0 then percent / config.linearPercent else 0) *
      config.linearAbsolute + config.min
  else
    let linear :=
      if config.linearPercent > 0 then
        Min.min percent config.linearPercent / config.linearPercent *
          config.linearAbsolute
      else 0
    let rangeExponential := config.range - config.linearAbsolute
    let remainder := step - config.steps * config.linearPercent
    let expPercent := 1 - config.linearPercent
    let percentOfMax := remainder / (config.steps * expPercent)
    let expVal := percentOfMax * rangeExponential
    linear + expRange expVal 0 rangeExponential + config.min

/-- `modelToStepInternal` from `src/index.ts`. -/
def modelToStepInternal (model0 : ℝ) (config : ResolvedConfig) : ℝ :=
  let model := limitBounds model0 ⟨config.min, config.max⟩
  let actualValue := Max.max (model - config.min) 0
  if config.linearAbsolute ≥ config.max then
    jsRound (actualValue / config.range * config.steps)
  else if config.linearAbsolute > 0 ∧ actualValue ≤ config.linearAbsolute then
    jsRound (actualValue / config.linearAbsolute * config.linearPercent *
      config.steps)
  else
    let remainderValue := actualValue - config.linearAbsolute
    let rangeExponential := config.range - config.linearAbsolute
    let dynamicPercent := 1 - config.linearPercent
    let percentOfMax :=
      rootRange remainderValue 0 rangeExponential / rangeExponential
    jsRound (config.steps * config.linearPercent +
      percentOfMax * config.steps * dynamicPercent)

/-- `stepToModel` convenience wrapper from `src/index.ts`. -/
def stepToModel (step steps : ℝ) (bounds : Bounds) (linear : Option LinearConfig) : ℝ :=
  stepToModelInternal step (resolveConfig steps bounds linear)

/-- `modelToStep` convenience wrapper from `src/index.ts`. -/
def modelToStep (model steps : ℝ) (bounds : Bounds) (linear : Option LinearConfig) : ℝ :=
  modelToStepInternal model (resolveConfig steps bounds linear)

/-- Division as JavaScript performs it, in the `Option` monad: `none` marks
an actually performed division by zero (which in JavaScript yields `NaN` or
`±Infinity` instead of an ordinary number). -/
def divChecked (a b : ℝ) : Option ℝ :=
  if b = 0 then none else some (a / b)

/-- `expRange`, with every division checked. -/
def expRangeChecked (value mn mx : ℝ) : Option ℝ :=
  (divChecked value (mx - mn)).map (fun q => q ^ 2 * (mx - mn) + mn)

/-- `rootRange`, with every division checked. -/
def rootRangeChecked (value mn mx : ℝ) : Option ℝ :=
  (divChecked (Max.max 0 (value - mn)) (mx - mn)).map
    (fun q => Real.sqrt q * (mx - mn))

/-- `stepToModelInternal`, with every division checked: `none` exactly when
the JavaScript source performs a division by zero on this input. -/
def stepToModelChecked (step0 : ℝ) (config : ResolvedConfig) : Option ℝ :=
  let step := limitBounds step0 ⟨0, config.steps⟩
  do
    let percent ← divChecked step config.steps
    if config.linearAbsolute ≥ config.max then
      return percent * config.range + config.min
    else if percent ≤ config.linearPercent then
      let percentOfAbsolute ←
        if config.linearPercent > 0 then divChecked percent config.linearPercent
        else pure 0
      return percentOfAbsolute * config.linearAbsolute + config.min
    else
      let linear ←
        if config.linearPercent > 0 then
          (divChecked (Min.min percent config.linearPercent)
              config.linearPercent).map (fun q => q * config.linearAbsolute)
        else pure 0
      let rangeExponential := config.range - config.linearAbsolute
      let remainder := step - config.steps * config.linearPercent
      let expPercent := 1 - config.linearPercent
      let percentOfMax ← divChecked remainder (config.steps * expPercent)
      let expVal := percentOfMax * rangeExponential
      let e ← expRangeChecked expVal 0 rangeExponential
      return linear + e + config.min

/-- `modelToStepInternal`, with every division checked: `none` exactly when
the JavaScript source performs a division by zero on this input. -/
def modelToStepChecked (model0 : ℝ) (config : ResolvedConfig) : Option ℝ :=
  let model := limitBounds model0 ⟨config.min, config.max⟩
  let actualValue := Max.max (model - config.min) 0
  if config.linearAbsolute ≥ config.max then
    (divChecked actualValue config.range).map
      (fun percent => jsRound (percent * config.steps))
  else if config.linearAbsolute > 0 ∧ actualValue ≤ config.linearAbsolute then
    (divChecked actualValue config.linearAbsolute).map
      (fun q => jsRound (q * config.linearPercent * config.steps))
  else do
    let remainderValue := actualValue - config.linearAbsolute
    let rangeExponential := config.range - config.linearAbsolute
    let dynamicPercent := 1 - config.linearPercent
    let r ← rootRangeChecked remainderValue 0 rangeExponential
    let percentOfMax ← divChecked r rangeExponential
    return jsRound (config.steps * config.linearPercent +
      percentOfMax * config.steps * dynamicPercent)

/-- The well-formedness conditions on a resolved configuration under which
the conversion pair behaves as the specification describes.  They hold for
every configuration the test fixtures use; the theorems below show which
claims need which of them. -/
structure GoodConfig (c : ResolvedConfig) : Prop where
  steps_pos : 0 < c.steps
  min_lt_max : c.min < c.max
  range_eq : c.range = c.max - c.min
  lp_nonneg : 0 ≤ c.linearPercent
  lp_le_one : c.linearPercent ≤ 1
  la_nonneg : 0 ≤ c.linearAbsolute
  la_pos : 0 < c.linearPercent → 0 < c.linearAbsolute
  la_zero : c.linearPercent = 0 → c.linearAbsolute = 0
  la_dominant : c.linearPercent = 1 → c.max ≤ c.linearAbsolute
  seam_lt : c.linearAbsolute < c.max → c.linearAbsolute + c.min < c.max

end

/-! ## Helper lemmas -/

theorem jsRound_natCast (n : ℕ) : jsRound (n : ℝ) = n := by
  rw [jsRound, round_natCast]
  norm_num

theorem jsRound_zero : jsRound 0 = 0 := by
  rw [jsRound, round_zero, Int.cast_zero]

theorem jsRound_mono {x y : ℝ} (h : x ≤ y) : jsRound x ≤ jsRound y := by
  rw [jsRound, jsRound]
  have : round x ≤ round y := by
    rw [round_eq, round_eq]
    exact Int.floor_mono (by linarith)
  exact_mod_cast this

theorem limitBounds_eq_self {v : ℝ} {b : Bounds} (h1 : b.min ≤ v) (h2 : v ≤ b.max) :
    limitBounds v b = v := by
  rw [limitBounds, max_eq_left h1, min_eq_left h2]

theorem limitBounds_mem {b : Bounds} (h : b.min ≤ b.max) (v : ℝ) :
    b.min ≤ limitBounds v b ∧ limitBounds v b ≤ b.max := by
  constructor
  · exact le_min (le_max_right v b.min) h
  · exact min_le_right _ _

theorem limitBounds_mono {b : Bounds} {v w : ℝ} (h : v ≤ w) :
    limitBounds v b ≤ limitBounds w b :=
  min_le_min (max_le_max h le_rfl) le_rfl

theorem limitBounds_low {v : ℝ} {b : Bounds} (hmm : b.min ≤ b.max) (h : v ≤ b.min) :
    limitBounds v b = b.min := by
  rw [limitBounds, max_eq_right h, min_eq_left hmm]

theorem limitBounds_high {v : ℝ} {b : Bounds} (hmm : b.min ≤ b.max) (h : b.max ≤ v) :
    limitBounds v b = b.max := by
  rw [limitBounds, max_eq_left (hmm.trans h), min_eq_right h]

theorem expRange_mul (q E : ℝ) : expRange (q * E) 0 E = q ^ 2 * E := by
  rcases eq_or_ne E 0 with hE | hE
  · subst hE; simp [expRange]
  · rw [expRange]
    rw [sub_zero, mul_div_assoc, div_self hE, mul_one, add_zero]

theorem rootRange_sq {q : ℝ} (E : ℝ) (hq : 0 ≤ q) (hE : 0 < E) :
    rootRange (q ^ 2 * E) 0 E = q * E := by
  rw [rootRange]
  rw [sub_zero, sub_zero, max_eq_right (by positivity), mul_div_assoc,
    div_self hE.ne', mul_one, Real.sqrt_sq hq]

/-! ## Branch-form lemmas for `stepToModelInternal` -/

theorem stepToModelInternal_eq_dom (c : ResolvedConfig) (step : ℝ)
    (h0 : 0 ≤ step) (h1 : step ≤ c.steps) (hAM : c.max ≤ c.linearAbsolute) :
    stepToModelInternal step c = step / c.steps * c.range + c.min := by
  simp only [stepToModelInternal]
  rw [limitBounds_eq_self h0 h1, if_pos hAM]

theorem stepToModelInternal_eq_lin (c : ResolvedConfig) (step : ℝ)
    (h0 : 0 ≤ step) (h1 : step ≤ c.steps) (hAM : ¬c.max ≤ c.linearAbsolute)
    (hlp : 0 < c.linearPercent) (hp : step / c.steps ≤ c.linearPercent) :
    stepToModelInternal step c =
      step / c.steps / c.linearPercent * c.linearAbsolute + c.min := by
  simp only [stepToModelInternal]
  rw [limitBounds_eq_self h0 h1, if_neg hAM, if_pos hp, if_pos hlp]

theorem stepToModelInternal_eq_min (c : ResolvedConfig) (step : ℝ)
    (h0 : 0 ≤ step) (h1 : step ≤ c.steps) (hAM : ¬c.max ≤ c.linearAbsolute)
    (hlp : ¬0 < c.linearPercent) (hp : step / c.steps ≤ c.linearPercent) :
    stepToModelInternal step c = c.min := by
  simp only [stepToModelInternal]
  rw [limitBounds_eq_self h0 h1, if_neg hAM, if_pos hp, if_neg hlp, zero_mul,
    zero_add]

theorem stepToModelInternal_eq_exp (c : ResolvedConfig) (step : ℝ)
    (hs : 0 < c.steps) (h0 : 0 ≤ step) (h1 : step ≤ c.steps)
    (hAM : ¬c.max ≤ c.linearAbsolute) (hp : ¬step / c.steps ≤ c.linearPercent) :
    stepToModelInternal step c =
      (if 0 < c.linearPercent then c.linearAbsolute else 0) +
        ((step / c.steps - c.linearPercent) / (1 - c.linearPercent)) ^ 2 *
          (c.range - c.linearAbsolute) + c.min := by
  have hlt : c.linearPercent < step / c.steps := lt_of_not_le hp
  simp only [stepToModelInternal]
  rw [limitBounds_eq_self h0 h1, if_neg hAM, if_neg hp]
  have hq : (step - c.steps * c.linearPercent) /
      (c.steps * (1 - c.linearPercent)) =
      (step / c.steps - c.linearPercent) / (1 - c.linearPercent) := by
    rcases eq_or_ne (1 - c.linearPercent) 0 with h | h
    · rw [h, mul_zero, div_zero, div_zero]
    · field_simp
  rw [hq, expRange_mul]
  rcases lt_or_le 0 c.linearPercent with hlp | hlp
  · rw [if_pos hlp, if_pos hlp, min_eq_right hlt.le, div_self hlp.ne', one_mul]
  · rw [if_neg (not_lt.2 hlp), if_neg (not_lt.2 hlp)]

/-! ## Branch-form lemmas for `modelToStepInternal` -/

theorem modelToStepInternal_eq_dom (c : ResolvedConfig) (model : ℝ)
    (hm0 : c.min ≤ model) (hm1 : model ≤ c.max) (hAM : c.max ≤ c.linearAbsolute) :
    modelToStepInternal model c =
      jsRound ((model - c.min) / c.range * c.steps) := by
  simp only [modelToStepInternal]
  rw [limitBounds_eq_self hm0 hm1, max_eq_left (sub_nonneg.2 hm0), if_pos hAM]

theorem modelToStepInternal_eq_lin (c : ResolvedConfig) (model : ℝ)
    (hm0 : c.min ≤ model) (hm1 : model ≤ c.max) (hAM : ¬c.max ≤ c.linearAbsolute)
    (hA : 0 < c.linearAbsolute) (hv : model - c.min ≤ c.linearAbsolute) :
    modelToStepInternal model c =
      jsRound ((model - c.min) / c.linearAbsolute * c.linearPercent * c.steps) := by
  simp only [modelToStepInternal]
  rw [limitBounds_eq_self hm0 hm1, max_eq_left (sub_nonneg.2 hm0), if_neg hAM,
    if_pos ⟨hA, hv⟩]

theorem modelToStepInternal_eq_exp (c : ResolvedConfig) (model : ℝ)
    (hm0 : c.min ≤ model) (hm1 : model ≤ c.max) (hAM : ¬c.max ≤ c.linearAbsolute)
    (hcond : ¬(0 < c.linearAbsolute ∧ model - c.min ≤ c.linearAbsolute)) :
    modelToStepInternal model c =
      jsRound (c.steps * c.linearPercent +
        rootRange (model - c.min - c.linearAbsolute) 0
            (c.range - c.linearAbsolute) / (c.range - c.linearAbsolute) *
          c.steps * (1 - c.linearPercent)) := by
  simp only [modelToStepInternal]
  rw [limitBounds_eq_self hm0 hm1, max_eq_left (sub_nonneg.2 hm0), if_neg hAM,
    if_neg hcond]

/-! ## The exact round trip on well-formed configurations -/

theorem roundTrip_aux (c : ResolvedConfig) (hg : GoodConfig c) (k : ℕ)
    (hk : (k : ℝ) ≤ c.steps) :
    modelToStepInternal (stepToModelInternal (k : ℝ) c) c = (k : ℝ) := by
  obtain ⟨hs, hmm, hrange, hlp0, _, hA0, hApos, hAz, _, hseam⟩ := hg
  have hk0 : (0 : ℝ) ≤ (k : ℝ) := Nat.cast_nonneg k
  have hR : 0 < c.range := by rw [hrange]; linarith
  have hp0 : 0 ≤ (k : ℝ) / c.steps := div_nonneg hk0 hs.le
  have hp1 : (k : ℝ) / c.steps ≤ 1 := (div_le_one hs).2 hk
  by_cases hAM : c.max ≤ c.linearAbsolute
  · -- fully linear-dominant regime
    rw [stepToModelInternal_eq_dom c _ hk0 hk hAM]
    have h1 : c.min ≤ (k : ℝ) / c.steps * c.range + c.min := by
      have := mul_nonneg hp0 hR.le
      linarith
    have h2 : (k : ℝ) / c.steps * c.range + c.min ≤ c.max := by
      have : (k : ℝ) / c.steps * c.range ≤ c.range :=
        mul_le_of_le_one_left hR.le hp1
      rw [hrange] at this ⊢
      linarith
    rw [modelToStepInternal_eq_dom c _ h1 h2 hAM, add_sub_cancel_right,
      mul_div_assoc, div_self hR.ne', mul_one, div_mul_cancel₀ _ hs.ne',
      jsRound_natCast]
  · -- mixed regime: linearAbsolute < max
    have hAMlt : c.linearAbsolute < c.max := lt_of_not_le hAM
    have hseam' : c.linearAbsolute + c.min < c.max := hseam hAMlt
    by_cases hp : (k : ℝ) / c.steps ≤ c.linearPercent
    · -- step inside the linear region
      rcases lt_or_le 0 c.linearPercent with hlp | hlp
      · have hA : 0 < c.linearAbsolute := hApos hlp
        rw [stepToModelInternal_eq_lin c _ hk0 hk hAM hlp hp]
        have hfrac0 : 0 ≤ (k : ℝ) / c.steps / c.linearPercent :=
          div_nonneg hp0 hlp.le
        have hfrac1 : (k : ℝ) / c.steps / c.linearPercent ≤ 1 :=
          (div_le_one hlp).2 hp
        have h1 : c.min ≤ (k : ℝ) / c.steps / c.linearPercent *
            c.linearAbsolute + c.min := by
          have := mul_nonneg hfrac0 hA0
          linarith
        have h2 : (k : ℝ) / c.steps / c.linearPercent * c.linearAbsolute +
            c.min ≤ c.max := by
          have : (k : ℝ) / c.steps / c.linearPercent * c.linearAbsolute ≤
              c.linearAbsolute := mul_le_of_le_one_left hA0 hfrac1
          linarith
        have hv : (k : ℝ) / c.steps / c.linearPercent * c.linearAbsolute +
            c.min - c.min ≤ c.linearAbsolute := by
          rw [add_sub_cancel_right]
          exact mul_le_of_le_one_left hA0 hfrac1
        rw [modelToStepInternal_eq_lin c _ h1 h2 hAM hA hv,
          add_sub_cancel_right]
        have harg : (k : ℝ) / c.steps / c.linearPercent * c.linearAbsolute /
            c.linearAbsolute * c.linearPercent * c.steps = (k : ℝ) := by
          field_simp
          ring
        rw [harg, jsRound_natCast]
      · -- linearPercent = 0, hence step 0
        have hlpz : c.linearPercent = 0 := le_antisymm hlp hlp0
        have hAzero : c.linearAbsolute = 0 := hAz hlpz
        have hkz : (k : ℝ) = 0 := by
          have : (k : ℝ) / c.steps = 0 := le_antisymm (hlpz ▸ hp) hp0
          have := (div_eq_zero_iff.1 this).resolve_right hs.ne'
          exact this
        rw [stepToModelInternal_eq_min c _ hk0 hk hAM (not_lt.2 hlp) hp]
        rw [modelToStepInternal_eq_exp c _ le_rfl hmm.le hAM
          (by rw [hAzero]; simp)]
        rw [hAzero, hlpz, sub_self, sub_zero, sub_zero]
        have : rootRange 0 0 c.range = 0 := by
          simp [rootRange]
        rw [this, zero_div, zero_mul, zero_mul, mul_zero, zero_add,
          jsRound_zero, hkz]
    · -- step inside the exponential region
      have hlt : c.linearPercent < (k : ℝ) / c.steps := lt_of_not_le hp
      have hlp1 : c.linearPercent < 1 := lt_of_lt_of_le hlt hp1
      have hE : 0 < c.range - c.linearAbsolute := by
        rw [hrange]; linarith
      set q : ℝ := ((k : ℝ) / c.steps - c.linearPercent) /
        (1 - c.linearPercent) with hqdef
      have hq0 : 0 < q := div_pos (by linarith) (by linarith)
      have hq1 : q ≤ 1 := by
        rw [hqdef, div_le_one (by linarith)]
        linarith
      rw [stepToModelInternal_eq_exp c _ hs hk0 hk hAM hp, ← hqdef]
      have hlin : (if 0 < c.linearPercent then c.linearAbsolute else 0) =
          c.linearAbsolute := by
        rcases lt_or_le 0 c.linearPercent with h | h
        · rw [if_pos h]
        · rw [if_neg (not_lt.2 h), hAz (le_antisymm h hlp0)]
      rw [hlin]
      set m : ℝ := c.linearAbsolute + q ^ 2 * (c.range - c.linearAbsolute) +
        c.min with hmdef
      have hqE : 0 < q ^ 2 * (c.range - c.linearAbsolute) := by positivity
      have hm1 : c.min ≤ m := by rw [hmdef]; nlinarith
      have hm2 : m ≤ c.max := by
        have hq2 : q ^ 2 ≤ 1 := by nlinarith
        have : q ^ 2 * (c.range - c.linearAbsolute) ≤
            c.range - c.linearAbsolute := by nlinarith
        rw [hmdef, hrange] at *
        linarith
      have hcond : ¬(0 < c.linearAbsolute ∧ m - c.min ≤ c.linearAbsolute) := by
        rintro ⟨-, habs⟩
        rw [hmdef] at habs
        nlinarith
      rw [modelToStepInternal_eq_exp c m hm1 hm2 hAM hcond]
      have hmv : m - c.min - c.linearAbsolute =
          q ^ 2 * (c.range - c.linearAbsolute) := by rw [hmdef]; ring
      rw [hmv, rootRange_sq _ hq0.le hE, mul_div_assoc, div_self hE.ne',
        mul_one, hqdef]
      have h1lp : (1 : ℝ) - c.linearPercent ≠ 0 := by linarith
      have harg : c.steps * c.linearPercent +
          ((k : ℝ) / c.steps - c.linearPercent) / (1 - c.linearPercent) *
            c.steps * (1 - c.linearPercent) = (k : ℝ) := by
        rw [mul_right_comm, div_mul_cancel₀ _ h1lp, sub_mul,
          div_mul_cancel₀ _ hs.ne']
        ring
      rw [harg, jsRound_natCast]

/-! ## Clamp idempotence -/

theorem limitBounds_idem (v : ℝ) (b : Bounds) :
    limitBounds (limitBounds v b) b = limitBounds v b := by
  rw [limitBounds, limitBounds]
  rcases le_total (Max.max v b.min) b.max with h | h
  · rw [min_eq_left h, max_assoc, max_self, min_eq_left h]
  · rw [min_eq_right h]
    rcases le_total b.min b.max with h' | h'
    · rw [max_eq_left h', min_self]
    · rw [max_eq_right h', min_eq_right h']

theorem stepToModelInternal_clamp (step : ℝ) (c : ResolvedConfig) :
    stepToModelInternal step c =
      stepToModelInternal (limitBounds step ⟨0, c.steps⟩) c := by
  simp only [stepToModelInternal]
  rw [limitBounds_idem]

theorem modelToStepInternal_clamp (model : ℝ) (c : ResolvedConfig) :
    modelToStepInternal model c =
      modelToStepInternal (limitBounds model ⟨c.min, c.max⟩) c := by
  simp only [modelToStepInternal]
  rw [limitBounds_idem]

/-! ## Output range of `stepToModelInternal` -/

theorem stepToModel_mem_aux (c : ResolvedConfig)
    (hs : 0 < c.steps) (hmm : c.min ≤ c.max) (hrange : c.range = c.max - c.min)
    (hlp0 : 0 ≤ c.linearPercent) (hlp1 : c.linearPercent ≤ 1)
    (hA0 : 0 ≤ c.linearAbsolute) (hAR : c.linearAbsolute + c.min ≤ c.max)
    (step : ℝ) :
    c.min ≤ stepToModelInternal step c ∧ stepToModelInternal step c ≤ c.max := by
  rw [stepToModelInternal_clamp step c]
  obtain ⟨ht0, ht1⟩ := limitBounds_mem (b := ⟨0, c.steps⟩) hs.le step
  set t := limitBounds step ⟨0, c.steps⟩ with htdef
  have hR : 0 ≤ c.range := by rw [hrange]; linarith
  have hp0 : 0 ≤ t / c.steps := div_nonneg ht0 hs.le
  have hp1 : t / c.steps ≤ 1 := (div_le_one hs).2 ht1
  by_cases hAM : c.max ≤ c.linearAbsolute
  · rw [stepToModelInternal_eq_dom c t ht0 ht1 hAM]
    have hu : t / c.steps * c.range ≤ c.range := mul_le_of_le_one_left hR hp1
    have hl : 0 ≤ t / c.steps * c.range := mul_nonneg hp0 hR
    constructor <;> linarith
  · by_cases hp : t / c.steps ≤ c.linearPercent
    · rcases lt_or_le 0 c.linearPercent with hlp | hlp
      · rw [stepToModelInternal_eq_lin c t ht0 ht1 hAM hlp hp]
        have hf1 : t / c.steps / c.linearPercent ≤ 1 := (div_le_one hlp).2 hp
        have hf0 : 0 ≤ t / c.steps / c.linearPercent := div_nonneg hp0 hlp.le
        have hu : t / c.steps / c.linearPercent * c.linearAbsolute ≤
            c.linearAbsolute := mul_le_of_le_one_left hA0 hf1
        have hl : 0 ≤ t / c.steps / c.linearPercent * c.linearAbsolute :=
          mul_nonneg hf0 hA0
        constructor <;> linarith
      · rw [stepToModelInternal_eq_min c t ht0 ht1 hAM (not_lt.2 hlp) hp]
        exact ⟨le_rfl, hmm⟩
    · rw [stepToModelInternal_eq_exp c t hs ht0 ht1 hAM hp]
      have hlt : c.linearPercent < t / c.steps := lt_of_not_le hp
      have hlp1' : c.linearPercent < 1 := lt_of_lt_of_le hlt hp1
      set q : ℝ := (t / c.steps - c.linearPercent) / (1 - c.linearPercent)
        with hqdef
      have hq0 : 0 ≤ q := div_nonneg (by linarith) (by linarith)
      have hq1 : q ≤ 1 := by
        rw [hqdef, div_le_one (by linarith)]
        linarith
      have hE : 0 ≤ c.range - c.linearAbsolute := by rw [hrange]; linarith
      have hq2 : q ^ 2 ≤ 1 := by nlinarith
      have hu : q ^ 2 * (c.range - c.linearAbsolute) ≤
          c.range - c.linearAbsolute := mul_le_of_le_one_left hE hq2
      have hl : 0 ≤ q ^ 2 * (c.range - c.linearAbsolute) := by positivity
      rcases lt_or_le 0 c.linearPercent with hlp | hlp
      · rw [if_pos hlp]
        constructor <;> linarith
      · rw [if_neg (not_lt.2 hlp)]
        constructor <;> linarith

/-! ## Boundary values -/

theorem stepToModel_zero_aux (c : ResolvedConfig) (hs : 0 < c.steps)
    (hlp0 : 0 ≤ c.linearPercent) : stepToModelInternal 0 c = c.min := by
  have hp : (0 : ℝ) / c.steps ≤ c.linearPercent := by
    rw [zero_div]; exact hlp0
  by_cases hAM : c.max ≤ c.linearAbsolute
  · rw [stepToModelInternal_eq_dom c 0 le_rfl hs.le hAM, zero_div, zero_mul,
      zero_add]
  · rcases lt_or_le 0 c.linearPercent with hlp | hlp
    · rw [stepToModelInternal_eq_lin c 0 le_rfl hs.le hAM hlp hp, zero_div,
        zero_div, zero_mul, zero_add]
    · rw [stepToModelInternal_eq_min c 0 le_rfl hs.le hAM (not_lt.2 hlp) hp]

theorem stepToModel_steps_aux (c : ResolvedConfig) (hg : GoodConfig c) :
    stepToModelInternal c.steps c = c.max := by
  obtain ⟨hs, hmm, hrange, hlp0, hlp1, hA0, hApos, hAz, hdom, hseam⟩ := hg
  have hpone : c.steps / c.steps = 1 := div_self hs.ne'
  by_cases hAM : c.max ≤ c.linearAbsolute
  · rw [stepToModelInternal_eq_dom c c.steps hs.le le_rfl hAM, hpone, one_mul,
      hrange]
    ring
  · have hlplt : c.linearPercent < 1 := by
      rcases lt_or_eq_of_le hlp1 with h | h
      · exact h
      · exact absurd (hdom h) hAM
    have hp : ¬c.steps / c.steps ≤ c.linearPercent := by
      rw [hpone]
      linarith
    rw [stepToModelInternal_eq_exp c c.steps hs hs.le le_rfl hAM hp, hpone]
    have hlin : (if 0 < c.linearPercent then c.linearAbsolute else 0) =
        c.linearAbsolute := by
      rcases lt_or_le 0 c.linearPercent with h | h
      · rw [if_pos h]
      · rw [if_neg (not_lt.2 h), hAz (le_antisymm h hlp0)]
    rw [hlin, div_self (by linarith : (1 : ℝ) - c.linearPercent ≠ 0), one_pow,
      one_mul, hrange]
    ring

theorem rootRange_zero (E : ℝ) : rootRange 0 0 E = 0 := by
  simp [rootRange]

theorem rootRange_nonneg {v E : ℝ} (hE : 0 ≤ E) : 0 ≤ rootRange v 0 E := by
  simp only [rootRange]
  exact mul_nonneg (Real.sqrt_nonneg _) (by linarith)

theorem jsRound_intCast (n : ℤ) : jsRound (n : ℝ) = n := by
  rw [jsRound, round_intCast]

theorem modelToStep_low_aux (c : ResolvedConfig) (hg : GoodConfig c)
    (model : ℝ) (hm : model ≤ c.min) : modelToStepInternal model c = 0 := by
  obtain ⟨hs, hmm, hrange, hlp0, hlp1, hA0, hApos, hAz, hdom, hseam⟩ := hg
  rw [modelToStepInternal_clamp model c,
    limitBounds_low (b := ⟨c.min, c.max⟩) hmm.le hm]
  by_cases hAM : c.max ≤ c.linearAbsolute
  · rw [modelToStepInternal_eq_dom c c.min le_rfl hmm.le hAM, sub_self,
      zero_div, zero_mul, jsRound_zero]
  · rcases lt_or_le 0 c.linearAbsolute with hA | hA
    · rw [modelToStepInternal_eq_lin c c.min le_rfl hmm.le hAM hA
        (by rw [sub_self]; exact hA0), sub_self, zero_div, zero_mul, zero_mul,
        jsRound_zero]
    · have hAzero : c.linearAbsolute = 0 := le_antisymm hA hA0
      have hlpz : c.linearPercent = 0 := by
        by_contra h
        have := hApos (lt_of_le_of_ne hlp0 (Ne.symm h))
        linarith
      rw [modelToStepInternal_eq_exp c c.min le_rfl hmm.le hAM
        (by rw [hAzero]; simp)]
      rw [hAzero, hlpz, sub_self, sub_zero, sub_zero, rootRange_zero, zero_div,
        zero_mul, zero_mul, mul_zero, zero_add, jsRound_zero]

theorem modelToStep_high_aux (c : ResolvedConfig) (hg : GoodConfig c)
    (n : ℤ) (hn : c.steps = (n : ℝ)) (model : ℝ) (hm : c.max ≤ model) :
    modelToStepInternal model c = c.steps := by
  obtain ⟨hs, hmm, hrange, hlp0, hlp1, hA0, hApos, hAz, hdom, hseam⟩ := hg
  have hR : 0 < c.range := by rw [hrange]; linarith
  rw [modelToStepInternal_clamp model c,
    limitBounds_high (b := ⟨c.min, c.max⟩) hmm.le hm]
  have hval : c.max - c.min = c.range := by rw [hrange]
  by_cases hAM : c.max ≤ c.linearAbsolute
  · rw [modelToStepInternal_eq_dom c c.max hmm.le le_rfl hAM, hval,
      div_self hR.ne', one_mul, hn, jsRound_intCast]
  · have hseam' : c.linearAbsolute + c.min < c.max := hseam (lt_of_not_le hAM)
    have hE : 0 < c.range - c.linearAbsolute := by rw [hrange]; linarith
    have hcond : ¬(0 < c.linearAbsolute ∧
        c.max - c.min ≤ c.linearAbsolute) := by
      rintro ⟨-, h⟩
      rw [hval] at h
      linarith
    rw [modelToStepInternal_eq_exp c c.max hmm.le le_rfl hAM hcond]
    have hrr : rootRange (c.max - c.min - c.linearAbsolute) 0
        (c.range - c.linearAbsolute) = c.range - c.linearAbsolute := by
      have h1 : c.max - c.min - c.linearAbsolute =
          1 ^ 2 * (c.range - c.linearAbsolute) := by rw [hrange]; ring
      rw [h1, rootRange_sq _ zero_le_one hE, one_mul]
    rw [hrr, div_self hE.ne', one_mul]
    have harg : c.steps * c.linearPercent + c.steps * (1 - c.linearPercent) =
        c.steps := by ring
    rw [harg, hn, jsRound_intCast]

/-! ## Monotonicity -/

theorem rootRange_le_rootRange {v w E : ℝ} (hE : 0 ≤ E) (h : v ≤ w) :
    rootRange v 0 E ≤ rootRange w 0 E := by
  simp only [rootRange]
  rcases eq_or_lt_of_le hE with h0 | h0
  · rw [← h0]
    norm_num
  · refine mul_le_mul_of_nonneg_right (Real.sqrt_le_sqrt ?_) (by linarith)
    exact (div_le_div_right (by linarith)).2 (max_le_max le_rfl (by linarith))

theorem stepToModel_mono_aux (c : ResolvedConfig) (hg : GoodConfig c)
    {x y : ℝ} (hxy : x ≤ y) :
    stepToModelInternal x c ≤ stepToModelInternal y c := by
  obtain ⟨hs, hmm, hrange, hlp0, hlp1, hA0, hApos, hAz, hdom, hseam⟩ := hg
  rw [stepToModelInternal_clamp x c, stepToModelInternal_clamp y c]
  obtain ⟨hu0, hu1⟩ := limitBounds_mem (b := ⟨0, c.steps⟩) hs.le x
  obtain ⟨hv0, hv1⟩ := limitBounds_mem (b := ⟨0, c.steps⟩) hs.le y
  have huv : limitBounds x ⟨0, c.steps⟩ ≤ limitBounds y ⟨0, c.steps⟩ :=
    limitBounds_mono hxy
  set u := limitBounds x ⟨0, c.steps⟩
  set v := limitBounds y ⟨0, c.steps⟩
  have hR : 0 < c.range := by rw [hrange]; linarith
  have hpuv : u / c.steps ≤ v / c.steps := (div_le_div_right hs).2 huv
  have hpu0 : 0 ≤ u / c.steps := div_nonneg hu0 hs.le
  have hpv1 : v / c.steps ≤ 1 := (div_le_one hs).2 hv1
  by_cases hAM : c.max ≤ c.linearAbsolute
  · rw [stepToModelInternal_eq_dom c u hu0 hu1 hAM,
      stepToModelInternal_eq_dom c v hv0 hv1 hAM]
    have := mul_le_mul_of_nonneg_right hpuv hR.le
    linarith
  · have hseam' : c.linearAbsolute + c.min < c.max := hseam (lt_of_not_le hAM)
    have hE : 0 < c.range - c.linearAbsolute := by rw [hrange]; linarith
    by_cases hpv : v / c.steps ≤ c.linearPercent
    · have hpu : u / c.steps ≤ c.linearPercent := le_trans hpuv hpv
      rcases lt_or_le 0 c.linearPercent with hlp | hlp
      · rw [stepToModelInternal_eq_lin c u hu0 hu1 hAM hlp hpu,
          stepToModelInternal_eq_lin c v hv0 hv1 hAM hlp hpv]
        have h1 : u / c.steps / c.linearPercent ≤
            v / c.steps / c.linearPercent := (div_le_div_right hlp).2 hpuv
        have := mul_le_mul_of_nonneg_right h1 hA0
        linarith
      · rw [stepToModelInternal_eq_min c u hu0 hu1 hAM (not_lt.2 hlp) hpu,
          stepToModelInternal_eq_min c v hv0 hv1 hAM (not_lt.2 hlp) hpv]
    · have hltv : c.linearPercent < v / c.steps := lt_of_not_le hpv
      have hlp1' : c.linearPercent < 1 := lt_of_lt_of_le hltv hpv1
      rw [stepToModelInternal_eq_exp c v hs hv0 hv1 hAM hpv]
      set qv : ℝ := (v / c.steps - c.linearPercent) / (1 - c.linearPercent)
        with hqvdef
      have hqv0 : 0 ≤ qv := div_nonneg (by linarith) (by linarith)
      have hqvE : 0 ≤ qv ^ 2 * (c.range - c.linearAbsolute) := by positivity
      by_cases hpu : u / c.steps ≤ c.linearPercent
      · rcases lt_or_le 0 c.linearPercent with hlp | hlp
        · rw [stepToModelInternal_eq_lin c u hu0 hu1 hAM hlp hpu, if_pos hlp]
          have hf1 : u / c.steps / c.linearPercent ≤ 1 :=
            (div_le_one hlp).2 hpu
          have := mul_le_of_le_one_left hA0 hf1
          linarith
        · rw [stepToModelInternal_eq_min c u hu0 hu1 hAM (not_lt.2 hlp) hpu,
            if_neg (not_lt.2 hlp)]
          linarith
      · rw [stepToModelInternal_eq_exp c u hs hu0 hu1 hAM hpu]
        set qu : ℝ := (u / c.steps - c.linearPercent) / (1 - c.linearPercent)
          with hqudef
        have hqu0 : 0 ≤ qu :=
          div_nonneg (by have := lt_of_not_le hpu; linarith) (by linarith)
        have hquv : qu ≤ qv :=
          (div_le_div_right (by linarith)).2 (by linarith)
        have hsq : qu ^ 2 ≤ qv ^ 2 := pow_le_pow_left hqu0 hquv 2
        have := mul_le_mul_of_nonneg_right hsq hE.le
        linarith

theorem modelToStep_mono_aux (c : ResolvedConfig) (hg : GoodConfig c)
    {x y : ℝ} (hxy : x ≤ y) :
    modelToStepInternal x c ≤ modelToStepInternal y c := by
  obtain ⟨hs, hmm, hrange, hlp0, hlp1, hA0, hApos, hAz, hdom, hseam⟩ := hg
  rw [modelToStepInternal_clamp x c, modelToStepInternal_clamp y c]
  obtain ⟨hu0, hu1⟩ := limitBounds_mem (b := ⟨c.min, c.max⟩) hmm.le x
  obtain ⟨hv0, hv1⟩ := limitBounds_mem (b := ⟨c.min, c.max⟩) hmm.le y
  have huv : limitBounds x ⟨c.min, c.max⟩ ≤ limitBounds y ⟨c.min, c.max⟩ :=
    limitBounds_mono hxy
  set u := limitBounds x ⟨c.min, c.max⟩
  set v := limitBounds y ⟨c.min, c.max⟩
  have hR : 0 < c.range := by rw [hrange]; linarith
  have hauv : u - c.min ≤ v - c.min := by linarith
  have hau0 : 0 ≤ u - c.min := by linarith
  by_cases hAM : c.max ≤ c.linearAbsolute
  · rw [modelToStepInternal_eq_dom c u hu0 hu1 hAM,
      modelToStepInternal_eq_dom c v hv0 hv1 hAM]
    refine jsRound_mono (mul_le_mul_of_nonneg_right ?_ hs.le)
    exact (div_le_div_right hR).2 hauv
  · have hseam' : c.linearAbsolute + c.min < c.max := hseam (lt_of_not_le hAM)
    have hE : 0 < c.range - c.linearAbsolute := by rw [hrange]; linarith
    by_cases hcv : 0 < c.linearAbsolute ∧ v - c.min ≤ c.linearAbsolute
    · have hcu : 0 < c.linearAbsolute ∧ u - c.min ≤ c.linearAbsolute :=
        ⟨hcv.1, le_trans hauv hcv.2⟩
      rw [modelToStepInternal_eq_lin c u hu0 hu1 hAM hcu.1 hcu.2,
        modelToStepInternal_eq_lin c v hv0 hv1 hAM hcv.1 hcv.2]
      refine jsRound_mono (mul_le_mul_of_nonneg_right
        (mul_le_mul_of_nonneg_right ?_ hlp0) hs.le)
      exact (div_le_div_right hcv.1).2 hauv
    · rw [modelToStepInternal_eq_exp c v hv0 hv1 hAM hcv]
      have hpomv : 0 ≤ rootRange (v - c.min - c.linearAbsolute) 0
          (c.range - c.linearAbsolute) / (c.range - c.linearAbsolute) :=
        div_nonneg (rootRange_nonneg hE.le) hE.le
      by_cases hcu : 0 < c.linearAbsolute ∧ u - c.min ≤ c.linearAbsolute
      · rw [modelToStepInternal_eq_lin c u hu0 hu1 hAM hcu.1 hcu.2]
        refine jsRound_mono ?_
        have h1 : (u - c.min) / c.linearAbsolute * c.linearPercent *
            c.steps ≤ c.linearPercent * c.steps := by
          refine mul_le_mul_of_nonneg_right
            (mul_le_of_le_one_left hlp0 ?_) hs.le
          exact (div_le_one hcu.1).2 hcu.2
        have h2 : 0 ≤ rootRange (v - c.min - c.linearAbsolute) 0
            (c.range - c.linearAbsolute) / (c.range - c.linearAbsolute) *
              c.steps * (1 - c.linearPercent) := by
          refine mul_nonneg (mul_nonneg hpomv hs.le) (by linarith)
        linarith [h1, h2]
      · rw [modelToStepInternal_eq_exp c u hu0 hu1 hAM hcu]
        refine jsRound_mono ?_
        have h1 : rootRange (u - c.min - c.linearAbsolute) 0
            (c.range - c.linearAbsolute) ≤
            rootRange (v - c.min - c.linearAbsolute) 0
              (c.range - c.linearAbsolute) :=
          rootRange_le_rootRange hE.le (by linarith)
        have h2 : rootRange (u - c.min - c.linearAbsolute) 0
            (c.range - c.linearAbsolute) / (c.range - c.linearAbsolute) ≤
            rootRange (v - c.min - c.linearAbsolute) 0
              (c.range - c.linearAbsolute) / (c.range - c.linearAbsolute) :=
          (div_le_div_right hE).2 h1
        have h3 := mul_le_mul_of_nonneg_right
          (mul_le_mul_of_nonneg_right h2 hs.le)
          (by linarith : (0 : ℝ) ≤ 1 - c.linearPercent)
        linarith

/-! ## Further `jsRound` bounds -/

theorem jsRound_nonneg {x : ℝ} (h : 0 ≤ x) : 0 ≤ jsRound x := by
  rw [jsRound, round_eq]
  have h1 : (0 : ℤ) ≤ ⌊x + 1 / 2⌋ := by
    rw [show (0 : ℤ) = ⌊(1 / 2 : ℝ)⌋ by norm_num]
    exact Int.floor_mono (by linarith)
  exact_mod_cast h1

theorem jsRound_le_intCast {x : ℝ} (n : ℤ) (h : x ≤ (n : ℝ)) :
    jsRound x ≤ (n : ℝ) := by
  rw [jsRound, round_eq]
  have h1 : ⌊x + 1 / 2⌋ ≤ n := by
    have h2 : ⌊x + 1 / 2⌋ ≤ ⌊(n : ℝ) + 1 / 2⌋ := Int.floor_mono (by linarith)
    rw [Int.floor_int_add] at h2
    have h3 : ⌊(1 / 2 : ℝ)⌋ = 0 := by norm_num
    rw [h3, add_zero] at h2
    exact h2
  exact_mod_cast h1

/-! ## Concrete resolved configurations -/

theorem cfgHappy_eq : resolveConfig 1000 ⟨500, 1500000⟩ (some ⟨15000, 75⟩) =
    ⟨1000, 15000, 75 / 100, 500, 1500000, 1499500⟩ := by
  have h : jsRound ((1500000 : ℝ) * (75 / 100)) = 1125000 := by
    have h1 : round ((1500000 : ℝ) * (75 / 100)) = 1125000 := by
      rw [round_eq]; norm_num
    rw [jsRound, h1]; norm_num
  simp only [resolveConfig, Option.getD]
  rw [h]
  norm_num

theorem cfgHappy_good :
    GoodConfig (resolveConfig 1000 ⟨500, 1500000⟩ (some ⟨15000, 75⟩)) := by
  rw [cfgHappy_eq]
  exact ⟨by norm_num, by norm_num, by norm_num, by norm_num, by norm_num,
    by norm_num, fun _ => by norm_num, by norm_num, by norm_num,
    fun _ => by norm_num⟩

theorem cfgMid_eq : resolveConfig 10 ⟨0, 100⟩ (some ⟨0, 50⟩) =
    ⟨10, 0, 50 / 100, 0, 100, 100⟩ := by
  have h : jsRound ((100 : ℝ) * (50 / 100)) = 50 := by
    have h1 : round ((100 : ℝ) * (50 / 100)) = 50 := by
      rw [round_eq]; norm_num
    rw [jsRound, h1]; norm_num
  simp only [resolveConfig, Option.getD]
  rw [h]
  norm_num

theorem cfgCrowd_eq : resolveConfig 10 ⟨600, 1000⟩ (some ⟨900, 80⟩) =
    ⟨10, 800, 80 / 100, 600, 1000, 400⟩ := by
  have h : jsRound ((1000 : ℝ) * (80 / 100)) = 800 := by
    have h1 : round ((1000 : ℝ) * (80 / 100)) = 800 := by
      rw [round_eq]; norm_num
    rw [jsRound, h1]; norm_num
  simp only [resolveConfig, Option.getD]
  rw [h]
  norm_num

theorem cfgFull_eq : resolveConfig 10 ⟨0, 10⟩ (some ⟨100, 100⟩) =
    ⟨10, 10, 1, 0, 100, 100⟩ := by
  have h : jsRound ((10 : ℝ) * (100 / 100)) = 10 := by
    have h1 : round ((10 : ℝ) * (100 / 100)) = 10 := by
      rw [round_eq]; norm_num
    rw [jsRound, h1]; norm_num
  simp only [resolveConfig, Option.getD]
  rw [h]
  norm_num

theorem cfgTiny_eq : resolveConfig 10 ⟨0, 3 / 5⟩ (some ⟨1, 99⟩) =
    ⟨10, 1, 99 / 100, 0, 3 / 5, 3 / 5⟩ := by
  have h : jsRound ((3 / 5 : ℝ) * (99 / 100)) = 1 := by
    have h1 : round ((3 / 5 : ℝ) * (99 / 100)) = 1 := by
      rw [round_eq]; norm_num
    rw [jsRound, h1]; norm_num
  simp only [resolveConfig, Option.getD]
  rw [h]
  norm_num

theorem cfgNeg_eq : resolveConfig 10 ⟨-10, -5⟩ none =
    ⟨10, 0, 0, -10, -5, 5⟩ := by
  have h : jsRound ((-5 : ℝ) * (0 / 100)) = 0 := by
    have h1 : round ((-5 : ℝ) * (0 / 100)) = 0 := by
      rw [round_eq]; norm_num
    rw [jsRound, h1]; norm_num
  simp only [resolveConfig, Option.getD]
  rw [h]
  norm_num

/-! ## Reference fixture values

The embedding reproduces the values asserted by the test fixtures that ship
with the source (`import.meta.vitest` block of `src/index.ts`), on the
fixture inputs where the asserted value is exact. -/

theorem cfgFixture_eq : resolveConfig 1000 ⟨500, 1250000⟩ (some ⟨15000, 75⟩) =
    ⟨1000, 15000, 75 / 100, 500, 1250000, 1249500⟩ := by
  have h : jsRound ((1250000 : ℝ) * (75 / 100)) = 937500 := by
    have h1 : round ((1250000 : ℝ) * (75 / 100)) = 937500 := by
      rw [round_eq]; norm_num
    rw [jsRound, h1]; norm_num
  simp only [resolveConfig, Option.getD]
  rw [h]
  norm_num

theorem fixture_resolveConfig_low_max :
    resolveConfig 1000 ⟨500, 12000⟩ (some ⟨15000, 90⟩) =
      ⟨1000, 10800, 90 / 100, 500, 12000, 11500⟩ := by
  have h : jsRound ((12000 : ℝ) * (90 / 100)) = 10800 := by
    have h1 : round ((12000 : ℝ) * (90 / 100)) = 10800 := by
      rw [round_eq]; norm_num
    rw [jsRound, h1]; norm_num
  simp only [resolveConfig, Option.getD]
  rw [h]
  norm_num

theorem fixture_stepToModel_500 :
    stepToModel 500 1000 ⟨500, 1250000⟩ (some ⟨15000, 75⟩) = 10500 := by
  rw [stepToModel, cfgFixture_eq]
  simp only [stepToModelInternal, limitBounds]
  norm_num

theorem fixture_stepToModel_1000 :
    stepToModel 1000 1000 ⟨500, 1250000⟩ (some ⟨15000, 75⟩) = 1250000 := by
  rw [stepToModel, cfgFixture_eq]
  simp only [stepToModelInternal, limitBounds, expRange]
  norm_num

theorem fixture_modelToStep_6500 :
    modelToStep 6500 1000 ⟨500, 1250000⟩ (some ⟨15000, 75⟩) = 300 := by
  rw [modelToStep, cfgFixture_eq]
  simp only [modelToStepInternal, limitBounds, jsRound, round_eq]
  norm_num

/-! ## Claim C1: round trip -/

/-- C1 (counterexample): the round trip is NOT exact for every configuration
produced by `resolveConfig`.  With `steps = 10`, `bounds = {0, 100}`,
`linear = {maxLinear: 0, linearPercent: 50}` (a configuration the claim's
quantifier admits), step `2` maps to model `0`, and model `0` maps back to
step `5`, not `2`.  No division by zero occurs on this input, so the
JavaScript source computes exactly these values as well. -/
theorem claim1_counterexample :
    ¬(modelToStepInternal
        (stepToModelInternal 2 (resolveConfig 10 ⟨0, 100⟩ (some ⟨0, 50⟩)))
        (resolveConfig 10 ⟨0, 100⟩ (some ⟨0, 50⟩)) = 2) := by
  rw [cfgMid_eq]
  have h1 : stepToModelInternal 2
      (⟨10, 0, 50 / 100, 0, 100, 100⟩ : ResolvedConfig) = 0 := by
    simp only [stepToModelInternal, limitBounds]
    norm_num
  rw [h1]
  have h2 : modelToStepInternal 0
      (⟨10, 0, 50 / 100, 0, 100, 100⟩ : ResolvedConfig) = 5 := by
    simp only [modelToStepInternal, limitBounds, rootRange, jsRound, round_eq]
    norm_num
  rw [h2]
  norm_num

/-- C1 (amended): for every configuration produced by `resolveConfig` that is
well formed (`steps > 0`, `min < max`, `0 ≤ linearPercent ≤ 1`,
`linearAbsolute ≥ 0` and positive exactly when `linearPercent` is, the
fully-linear mode dominant when `linearPercent = 1`, and
`linearAbsolute + min < max` whenever `linearAbsolute < max`) and every
integer step in `[0, steps]`, `modelToStep (stepToModel step)` equals `step`
exactly, in every regime (mixed, fully linear, and no linear config). -/
theorem claim1_round_trip_exact (steps : ℝ) (bounds : Bounds)
    (linear : Option LinearConfig) (k : ℕ)
    (hg : GoodConfig (resolveConfig steps bounds linear))
    (hk : (k : ℝ) ≤ steps) :
    modelToStepInternal
      (stepToModelInternal (k : ℝ) (resolveConfig steps bounds linear))
      (resolveConfig steps bounds linear) = (k : ℝ) :=
  roundTrip_aux _ hg k hk

/-- Witness for C1: the round trip at step 300 of the reference fixture
configuration. -/
theorem claim1_witness :
    modelToStepInternal
      (stepToModelInternal ((300 : ℕ) : ℝ)
        (resolveConfig 1000 ⟨500, 1500000⟩ (some ⟨15000, 75⟩)))
      (resolveConfig 1000 ⟨500, 1500000⟩ (some ⟨15000, 75⟩)) =
      ((300 : ℕ) : ℝ) :=
  claim1_round_trip_exact 1000 ⟨500, 1500000⟩ (some ⟨15000, 75⟩) 300
    cfgHappy_good (by norm_num)

/-! ## Claim C2: output range of `stepToModel` -/

/-- C2 (counterexample): the claimed hypotheses (`steps > 0`,
`bounds.max ≥ bounds.min`, `0 ≤ linearPercent ≤ 100`, `maxLinear ≥ 0`) do
not ensure the output lies in `[min, max]`: with `steps = 10`,
`bounds = {600, 1000}`, `linear = {maxLinear: 900, linearPercent: 80}`,
step `8` maps to model `1400 > max = 1000`. -/
theorem claim2_counterexample :
    ¬(stepToModelInternal 8 (resolveConfig 10 ⟨600, 1000⟩ (some ⟨900, 80⟩)) ≤
        (resolveConfig 10 ⟨600, 1000⟩ (some ⟨900, 80⟩)).max) := by
  rw [cfgCrowd_eq]
  have h : stepToModelInternal 8
      (⟨10, 800, 80 / 100, 600, 1000, 400⟩ : ResolvedConfig) = 1400 := by
    simp only [stepToModelInternal, limitBounds]
    norm_num
  rw [h]
  norm_num

/-- C2 (amended): for every configuration produced by `resolveConfig` whose
resolved values satisfy `steps > 0`, `min ≤ max`, `0 ≤ linearPercent ≤ 1`,
`0 ≤ linearAbsolute` and `linearAbsolute + min ≤ max`, and every real step
input, `stepToModel` returns a value in `[min, max]`. -/
theorem claim2_output_in_bounds (steps : ℝ) (bounds : Bounds)
    (linear : Option LinearConfig) (step : ℝ) (hs : 0 < steps)
    (hmm : (resolveConfig steps bounds linear).min ≤
      (resolveConfig steps bounds linear).max)
    (hlp0 : 0 ≤ (resolveConfig steps bounds linear).linearPercent)
    (hlp1 : (resolveConfig steps bounds linear).linearPercent ≤ 1)
    (hA0 : 0 ≤ (resolveConfig steps bounds linear).linearAbsolute)
    (hAR : (resolveConfig steps bounds linear).linearAbsolute +
      (resolveConfig steps bounds linear).min ≤
      (resolveConfig steps bounds linear).max) :
    (resolveConfig steps bounds linear).min ≤
      stepToModelInternal step (resolveConfig steps bounds linear) ∧
    stepToModelInternal step (resolveConfig steps bounds linear) ≤
      (resolveConfig steps bounds linear).max :=
  stepToModel_mem_aux _ hs hmm rfl hlp0 hlp1 hA0 hAR step

/-- Witness for C2 at the reference fixture configuration with an
out-of-range step input. -/
theorem claim2_witness :
    (resolveConfig 1000 ⟨500, 1500000⟩ (some ⟨15000, 75⟩)).min ≤
      stepToModelInternal 123456
        (resolveConfig 1000 ⟨500, 1500000⟩ (some ⟨15000, 75⟩)) ∧
    stepToModelInternal 123456
        (resolveConfig 1000 ⟨500, 1500000⟩ (some ⟨15000, 75⟩)) ≤
      (resolveConfig 1000 ⟨500, 1500000⟩ (some ⟨15000, 75⟩)).max :=
  claim2_output_in_bounds 1000 ⟨500, 1500000⟩ (some ⟨15000, 75⟩) 123456
    (by norm_num) (by rw [cfgHappy_eq]; norm_num)
    (by rw [cfgHappy_eq]; norm_num) (by rw [cfgHappy_eq]; norm_num)
    (by rw [cfgHappy_eq]; norm_num) (by rw [cfgHappy_eq]; norm_num)

/-! ## Claim C3: boundary values -/

/-- C3 (counterexample): `stepToModel` at `step = steps` does not return
`max` for every resolved configuration: with `steps = 10`,
`bounds = {0, 10}`, `linear = {maxLinear: 100, linearPercent: 100}`,
`resolveConfig` yields `max = 100` but `linearAbsolute = 10`, and
`stepToModel steps` returns `10`, not `100`. -/
theorem claim3_counterexample :
    ¬(stepToModelInternal (resolveConfig 10 ⟨0, 10⟩ (some ⟨100, 100⟩)).steps
        (resolveConfig 10 ⟨0, 10⟩ (some ⟨100, 100⟩)) =
      (resolveConfig 10 ⟨0, 10⟩ (some ⟨100, 100⟩)).max) := by
  rw [cfgFull_eq]
  have h : stepToModelInternal (10 : ℝ)
      (⟨10, 10, 1, 0, 100, 100⟩ : ResolvedConfig) = 10 := by
    simp only [stepToModelInternal, limitBounds]
    norm_num
  simpa using h.symm ▸ (by norm_num : (10 : ℝ) ≠ 100)

/-- C3 (amended): for every well-formed configuration produced by
`resolveConfig` from a natural number of steps, `stepToModel 0 = min`,
`stepToModel steps = max`, `modelToStep model = 0` for every
`model ≤ min`, and `modelToStep model = steps` for every `model ≥ max`. -/
theorem claim3_boundary (n : ℕ) (bounds : Bounds) (linear : Option LinearConfig)
    (hg : GoodConfig (resolveConfig (n : ℝ) bounds linear)) :
    stepToModelInternal 0 (resolveConfig (n : ℝ) bounds linear) =
      (resolveConfig (n : ℝ) bounds linear).min ∧
    stepToModelInternal (resolveConfig (n : ℝ) bounds linear).steps
        (resolveConfig (n : ℝ) bounds linear) =
      (resolveConfig (n : ℝ) bounds linear).max ∧
    (∀ model : ℝ, model ≤ (resolveConfig (n : ℝ) bounds linear).min →
      modelToStepInternal model (resolveConfig (n : ℝ) bounds linear) = 0) ∧
    (∀ model : ℝ, (resolveConfig (n : ℝ) bounds linear).max ≤ model →
      modelToStepInternal model (resolveConfig (n : ℝ) bounds linear) =
        (resolveConfig (n : ℝ) bounds linear).steps) := by
  have hsteps : (resolveConfig (n : ℝ) bounds linear).steps =
      ((n : ℤ) : ℝ) := by
    show (n : ℝ) = ((n : ℤ) : ℝ)
    push_cast
    rfl
  exact ⟨stepToModel_zero_aux _ hg.steps_pos hg.lp_nonneg,
    stepToModel_steps_aux _ hg,
    fun model hm => modelToStep_low_aux _ hg model hm,
    fun model hm => modelToStep_high_aux _ hg (n : ℤ) hsteps model hm⟩

/-- Witness for C3 at the reference fixture configuration. -/
theorem claim3_witness :
    stepToModelInternal 0
        (resolveConfig ((1000 : ℕ) : ℝ) ⟨500, 1500000⟩ (some ⟨15000, 75⟩)) =
      (resolveConfig ((1000 : ℕ) : ℝ) ⟨500, 1500000⟩ (some ⟨15000, 75⟩)).min ∧
    stepToModelInternal
        (resolveConfig ((1000 : ℕ) : ℝ) ⟨500, 1500000⟩
          (some ⟨15000, 75⟩)).steps
        (resolveConfig ((1000 : ℕ) : ℝ) ⟨500, 1500000⟩ (some ⟨15000, 75⟩)) =
      (resolveConfig ((1000 : ℕ) : ℝ) ⟨500, 1500000⟩ (some ⟨15000, 75⟩)).max ∧
    (∀ model : ℝ,
      model ≤ (resolveConfig ((1000 : ℕ) : ℝ) ⟨500, 1500000⟩
        (some ⟨15000, 75⟩)).min →
      modelToStepInternal model
        (resolveConfig ((1000 : ℕ) : ℝ) ⟨500, 1500000⟩ (some ⟨15000, 75⟩)) =
        0) ∧
    (∀ model : ℝ,
      (resolveConfig ((1000 : ℕ) : ℝ) ⟨500, 1500000⟩
        (some ⟨15000, 75⟩)).max ≤ model →
      modelToStepInternal model
        (resolveConfig ((1000 : ℕ) : ℝ) ⟨500, 1500000⟩ (some ⟨15000, 75⟩)) =
        (resolveConfig ((1000 : ℕ) : ℝ) ⟨500, 1500000⟩
          (some ⟨15000, 75⟩)).steps) :=
  claim3_boundary 1000 ⟨500, 1500000⟩ (some ⟨15000, 75⟩)
    (by rw [show ((1000 : ℕ) : ℝ) = (1000 : ℝ) by norm_num]
        exact cfgHappy_good)

/-! ## Claim C4: the `resolveConfig` formula -/

/-- C4: for every input, `resolveConfig` returns exactly the record the
specification describes, and an absent linear argument is treated as
`{maxLinear: 0, linearPercent: 0}`. -/
theorem claim4_resolveConfig_formula (steps : ℝ) (bounds : Bounds)
    (linear : Option LinearConfig) :
    resolveConfig steps bounds linear = resolveConfigSpec steps bounds linear := by
  cases linear <;> rfl

/-! ## Claim C6: monotonicity -/

/-- C6 (counterexample): `stepToModel` is NOT non-decreasing for every
resolved configuration: with `steps = 10`, `bounds = {600, 1000}`,
`linear = {maxLinear: 900, linearPercent: 80}`, step `8` maps to `1400`
while the larger step `10` maps to `1000`. -/
theorem claim6_counterexample :
    ¬(stepToModelInternal 8 (resolveConfig 10 ⟨600, 1000⟩ (some ⟨900, 80⟩)) ≤
        stepToModelInternal 10
          (resolveConfig 10 ⟨600, 1000⟩ (some ⟨900, 80⟩))) := by
  rw [cfgCrowd_eq]
  have h8 : stepToModelInternal 8
      (⟨10, 800, 80 / 100, 600, 1000, 400⟩ : ResolvedConfig) = 1400 := by
    simp only [stepToModelInternal, limitBounds]
    norm_num
  have h10 : stepToModelInternal 10
      (⟨10, 800, 80 / 100, 600, 1000, 400⟩ : ResolvedConfig) = 1000 := by
    simp only [stepToModelInternal, limitBounds, expRange]
    norm_num
  rw [h8, h10]
  norm_num

/-- C6 (amended): for every well-formed configuration produced by
`resolveConfig`, `stepToModel` is non-decreasing in its step argument and
`modelToStep` is non-decreasing in its model argument. -/
theorem claim6_monotone (steps : ℝ) (bounds : Bounds)
    (linear : Option LinearConfig)
    (hg : GoodConfig (resolveConfig steps bounds linear)) :
    (∀ x y : ℝ, x ≤ y →
      stepToModelInternal x (resolveConfig steps bounds linear) ≤
        stepToModelInternal y (resolveConfig steps bounds linear)) ∧
    (∀ x y : ℝ, x ≤ y →
      modelToStepInternal x (resolveConfig steps bounds linear) ≤
        modelToStepInternal y (resolveConfig steps bounds linear)) :=
  ⟨fun _ _ h => stepToModel_mono_aux _ hg h,
   fun _ _ h => modelToStep_mono_aux _ hg h⟩

/-- Witness for C6 at the reference fixture configuration. -/
theorem claim6_witness :
    stepToModelInternal 300
        (resolveConfig 1000 ⟨500, 1500000⟩ (some ⟨15000, 75⟩)) ≤
      stepToModelInternal 800
        (resolveConfig 1000 ⟨500, 1500000⟩ (some ⟨15000, 75⟩)) ∧
    modelToStepInternal 6500
        (resolveConfig 1000 ⟨500, 1500000⟩ (some ⟨15000, 75⟩)) ≤
      modelToStepInternal 20000
        (resolveConfig 1000 ⟨500, 1500000⟩ (some ⟨15000, 75⟩)) :=
  ⟨(claim6_monotone 1000 ⟨500, 1500000⟩ (some ⟨15000, 75⟩)
      cfgHappy_good).1 300 800 (by norm_num),
   (claim6_monotone 1000 ⟨500, 1500000⟩ (some ⟨15000, 75⟩)
      cfgHappy_good).2 6500 20000 (by norm_num)⟩

/-! ## Claim C7: `0 ≤ linearAbsolute ≤ max` -/

/-- C7 (counterexample): a `ResolvedConfig` produced by `resolveConfig` can
violate `linearAbsolute ≤ max` even for nonnegative inputs with
`0 ≤ linearPercent ≤ 100`: with `bounds = {0, 0.6}` and
`linear = {maxLinear: 1, linearPercent: 99}`, rounding gives
`linearAbsolute = round(0.594) = 1 > max = 0.6`. -/
theorem claim7_counterexample :
    ¬((resolveConfig 10 ⟨0, 3 / 5⟩ (some ⟨1, 99⟩)).linearAbsolute ≤
        (resolveConfig 10 ⟨0, 3 / 5⟩ (some ⟨1, 99⟩)).max) := by
  rw [cfgTiny_eq]
  norm_num

/-- C7 (amended): whenever `bounds.max` is a natural number,
`maxLinear ≥ 0` and `0 ≤ linearPercent ≤ 100`, every `ResolvedConfig`
produced by `resolveConfig` satisfies `0 ≤ linearAbsolute ≤ max`. -/
theorem claim7_linearAbsolute_bounds (steps : ℝ) (bounds : Bounds)
    (linear : Option LinearConfig) (n : ℕ) (hbm : bounds.max = (n : ℝ))
    (hML : 0 ≤ (linear.getD ⟨0, 0⟩).maxLinear)
    (hL0 : 0 ≤ (linear.getD ⟨0, 0⟩).linearPercent)
    (hL1 : (linear.getD ⟨0, 0⟩).linearPercent ≤ 100) :
    0 ≤ (resolveConfig steps bounds linear).linearAbsolute ∧
    (resolveConfig steps bounds linear).linearAbsolute ≤
      (resolveConfig steps bounds linear).max := by
  set l := linear.getD ⟨0, 0⟩ with hl
  have hA : (resolveConfig steps bounds linear).linearAbsolute =
      Min.min l.maxLinear (jsRound (bounds.max * (l.linearPercent / 100))) :=
    rfl
  have hM : (resolveConfig steps bounds linear).max =
      (if l.linearPercent = 100 then l.maxLinear else bounds.max) := rfl
  constructor
  · rw [hA]
    refine le_min hML (jsRound_nonneg ?_)
    rw [hbm]
    exact mul_nonneg (Nat.cast_nonneg n) (by linarith)
  · rw [hA, hM]
    rcases eq_or_ne l.linearPercent 100 with h | h
    · rw [if_pos h]
      exact min_le_left _ _
    · rw [if_neg h]
      refine le_trans (min_le_right _ _) ?_
      rw [hbm]
      have harg : (n : ℝ) * (l.linearPercent / 100) ≤ ((n : ℤ) : ℝ) := by
        have h1 : (n : ℝ) * (l.linearPercent / 100) ≤ (n : ℝ) * 1 :=
          mul_le_mul_of_nonneg_left (by linarith) (Nat.cast_nonneg n)
        push_cast
        linarith
      have h2 := jsRound_le_intCast (n : ℤ) harg
      push_cast at h2
      exact h2

/-- Witness for C7 at the reference fixture configuration. -/
theorem claim7_witness :
    0 ≤ (resolveConfig 1000 ⟨500, 1500000⟩
        (some ⟨15000, 75⟩)).linearAbsolute ∧
    (resolveConfig 1000 ⟨500, 1500000⟩ (some ⟨15000, 75⟩)).linearAbsolute ≤
      (resolveConfig 1000 ⟨500, 1500000⟩ (some ⟨15000, 75⟩)).max :=
  claim7_linearAbsolute_bounds 1000 ⟨500, 1500000⟩ (some ⟨15000, 75⟩)
    1500000 (by norm_num) (by norm_num [Option.getD])
    (by norm_num [Option.getD]) (by norm_num [Option.getD])

/-! ## Claim C8: continuity at the seam -/

/-- C8: for every configuration with `0 < linearPercent < 1` and
`linearAbsolute < max` (and positive steps), the linear branch of
`stepToModel` at `step = steps * linearPercent` and the exponential branch
expression at its zero point `percentOfMax = 0` both yield exactly
`linearAbsolute + min` — the piecewise mapping is continuous at the seam. -/
theorem claim8_seam_continuity (c : ResolvedConfig) (hs : 0 < c.steps)
    (h0 : 0 < c.linearPercent) (h1 : c.linearPercent < 1)
    (hA : c.linearAbsolute < c.max) :
    stepToModelInternal (c.steps * c.linearPercent) c =
      c.linearAbsolute + c.min ∧
    Min.min c.linearPercent c.linearPercent / c.linearPercent *
        c.linearAbsolute +
      expRange (0 * (c.range - c.linearAbsolute)) 0
        (c.range - c.linearAbsolute) + c.min =
      c.linearAbsolute + c.min := by
  constructor
  · have hstep0 : 0 ≤ c.steps * c.linearPercent := by positivity
    have hstep1 : c.steps * c.linearPercent ≤ c.steps := by nlinarith
    have hpercent : c.steps * c.linearPercent / c.steps = c.linearPercent := by
      rw [mul_comm, mul_div_assoc, div_self hs.ne', mul_one]
    rw [stepToModelInternal_eq_lin c _ hstep0 hstep1 (not_le.2 hA) h0
      (le_of_eq hpercent), hpercent, div_self h0.ne', one_mul]
  · rw [min_self, div_self h0.ne', one_mul, expRange_mul]
    norm_num

/-- Witness for C8 at the reference fixture configuration. -/
theorem claim8_witness :
    stepToModelInternal
        ((resolveConfig 1000 ⟨500, 1500000⟩ (some ⟨15000, 75⟩)).steps *
          (resolveConfig 1000 ⟨500, 1500000⟩ (some ⟨15000, 75⟩)).linearPercent)
        (resolveConfig 1000 ⟨500, 1500000⟩ (some ⟨15000, 75⟩)) =
      (resolveConfig 1000 ⟨500, 1500000⟩ (some ⟨15000, 75⟩)).linearAbsolute +
        (resolveConfig 1000 ⟨500, 1500000⟩ (some ⟨15000, 75⟩)).min ∧
    Min.min (resolveConfig 1000 ⟨500, 1500000⟩ (some ⟨15000, 75⟩)).linearPercent
          (resolveConfig 1000 ⟨500, 1500000⟩ (some ⟨15000, 75⟩)).linearPercent /
        (resolveConfig 1000 ⟨500, 1500000⟩ (some ⟨15000, 75⟩)).linearPercent *
        (resolveConfig 1000 ⟨500, 1500000⟩ (some ⟨15000, 75⟩)).linearAbsolute +
      expRange
        (0 * ((resolveConfig 1000 ⟨500, 1500000⟩ (some ⟨15000, 75⟩)).range -
          (resolveConfig 1000 ⟨500, 1500000⟩
            (some ⟨15000, 75⟩)).linearAbsolute))
        0
        ((resolveConfig 1000 ⟨500, 1500000⟩ (some ⟨15000, 75⟩)).range -
          (resolveConfig 1000 ⟨500, 1500000⟩
            (some ⟨15000, 75⟩)).linearAbsolute) +
      (resolveConfig 1000 ⟨500, 1500000⟩ (some ⟨15000, 75⟩)).min =
      (resolveConfig 1000 ⟨500, 1500000⟩ (some ⟨15000, 75⟩)).linearAbsolute +
        (resolveConfig 1000 ⟨500, 1500000⟩ (some ⟨15000, 75⟩)).min :=
  claim8_seam_continuity (resolveConfig 1000 ⟨500, 1500000⟩ (some ⟨15000, 75⟩))
    (by rw [cfgHappy_eq]; norm_num) (by rw [cfgHappy_eq]; norm_num)
    (by rw [cfgHappy_eq]; norm_num) (by rw [cfgHappy_eq]; norm_num)

/-! ## Claim C9: pure square law without a linear config -/

/-- C9 (counterexample): when no linear configuration is supplied the
mapping does NOT always follow the square law: with `bounds = {-10, -5}`
(so `bounds.max ≤ 0`), `resolveConfig` yields `linearAbsolute = 0 ≥ max`,
the fully-linear branch is taken, and `stepToModel 5` returns `-7.5`
rather than the square-law value `-8.75`. -/
theorem claim9_counterexample :
    ¬(stepToModel 5 10 ⟨-10, -5⟩ none =
        ((5 : ℝ) / 10) ^ 2 * ((-5) - (-10)) + (-10)) := by
  rw [stepToModel, cfgNeg_eq]
  have h : stepToModelInternal 5 (⟨10, 0, 0, -10, -5, 5⟩ : ResolvedConfig) =
      -15 / 2 := by
    simp only [stepToModelInternal, limitBounds]
    norm_num
  rw [h]
  norm_num

/-- C9 (amended): when no linear configuration is supplied and
`bounds.min < bounds.max` with `bounds.max > 0`, for every step in
`[0, steps]` with `steps > 0`, `stepToModel` equals
`(step/steps)^2 * (bounds.max - bounds.min) + bounds.min`. -/
theorem claim9_square_law (steps : ℝ) (bounds : Bounds) (step : ℝ)
    (hs : 0 < steps) (hmm : bounds.min < bounds.max) (hmax : 0 < bounds.max)
    (h0 : 0 ≤ step) (h1 : step ≤ steps) :
    stepToModel step steps bounds none =
      (step / steps) ^ 2 * (bounds.max - bounds.min) + bounds.min := by
  have hcfg : resolveConfig steps bounds none =
      ⟨steps, 0, 0, bounds.min, bounds.max, bounds.max - bounds.min⟩ := by
    simp only [resolveConfig, Option.getD]
    norm_num [jsRound]
  rw [stepToModel, hcfg]
  set c : ResolvedConfig :=
    ⟨steps, 0, 0, bounds.min, bounds.max, bounds.max - bounds.min⟩ with hc
  have hAM : ¬c.max ≤ c.linearAbsolute := by
    rw [hc]
    show ¬bounds.max ≤ 0
    linarith
  by_cases hp : step / steps ≤ 0
  · have hp0 : step / steps = 0 := le_antisymm hp (div_nonneg h0 hs.le)
    rw [stepToModelInternal_eq_min c step h0 h1 hAM (lt_irrefl 0) hp, hp0]
    show bounds.min = 0 ^ 2 * (bounds.max - bounds.min) + bounds.min
    ring
  · rw [stepToModelInternal_eq_exp c step hs h0 h1 hAM hp]
    show (if (0 : ℝ) < 0 then (0 : ℝ) else 0) +
        ((step / steps - 0) / (1 - 0)) ^ 2 * (bounds.max - bounds.min - 0) +
        bounds.min = _
    norm_num

/-- Witness for C9 at the no-linear-config fixture. -/
theorem claim9_witness :
    stepToModel 15 10000 ⟨500, 1500000⟩ none =
      ((15 : ℝ) / 10000) ^ 2 * (1500000 - 500) + 500 :=
  claim9_square_law 10000 ⟨500, 1500000⟩ 15 (by norm_num) (by norm_num)
    (by norm_num) (by norm_num) (by norm_num)

/-! ## Claim C10: the clamp helper -/

/-- C10: `limitBounds` returns `bounds.max` regardless of the value when
`bounds.min > bounds.max`, and otherwise clamps the value into
`[bounds.min, bounds.max]`, returning the value itself when it already
lies inside. -/
theorem claim10_limitBounds_cases (v : ℝ) (b : Bounds) :
    (b.max < b.min → limitBounds v b = b.max) ∧
    (b.min ≤ b.max →
      (b.min ≤ v → v ≤ b.max → limitBounds v b = v) ∧
      (v < b.min → limitBounds v b = b.min) ∧
      (b.max < v → limitBounds v b = b.max)) := by
  constructor
  · intro h
    rw [limitBounds]
    exact min_eq_right (le_trans h.le (le_max_right v b.min))
  · intro hmm
    exact ⟨fun h1 h2 => limitBounds_eq_self h1 h2,
      fun h => limitBounds_low hmm h.le,
      fun h => limitBounds_high hmm h.le⟩

/-- Witness for C10 exercising all four cases. -/
theorem claim10_witness :
    limitBounds 7 ⟨20, 3⟩ = 3 ∧ limitBounds 5 ⟨0, 10⟩ = 5 ∧
    limitBounds (-2) ⟨0, 10⟩ = 0 ∧ limitBounds 42 ⟨0, 10⟩ = 10 :=
  ⟨(claim10_limitBounds_cases 7 ⟨20, 3⟩).1 (by norm_num),
   ((claim10_limitBounds_cases 5 ⟨0, 10⟩).2 (by norm_num)).1 (by norm_num)
     (by norm_num),
   (((claim10_limitBounds_cases (-2) ⟨0, 10⟩).2 (by norm_num)).2).1
     (by norm_num),
   (((claim10_limitBounds_cases 42 ⟨0, 10⟩).2 (by norm_num)).2).2
     (by norm_num)⟩

/-! ## Claim C5: division-by-zero handling -/

theorem divChecked_ne_zero {a b : ℝ} (h : b ≠ 0) :
    divChecked a b = some (a / b) := if_neg h

/-- On a configuration whose `linearPercent` is zero (with nonzero `steps`,
`range` and exponential range) neither transform ever divides by zero: the
`linearPercent > 0` guards in the source skip every division whose divisor
would be the zero `linearPercent`. -/
theorem checked_isSome_aux (c : ResolvedConfig) (hs : c.steps ≠ 0)
    (hlp : c.linearPercent = 0) (hA : c.linearAbsolute ≤ 0)
    (hR : c.range ≠ 0) (hE : c.range - c.linearAbsolute ≠ 0)
    (step model : ℝ) :
    (stepToModelChecked step c).isSome = true ∧
    (modelToStepChecked model c).isSome = true := by
  have hlpneg : ¬0 < c.linearPercent := by rw [hlp]; exact lt_irrefl 0
  have hE' : c.range - c.linearAbsolute - 0 ≠ 0 := by rw [sub_zero]; exact hE
  have hsd : c.steps * (1 - c.linearPercent) ≠ 0 := by
    rw [hlp]
    simpa using hs
  constructor
  · rw [stepToModelChecked]
    rw [divChecked_ne_zero hs]
    simp only [if_neg hlpneg, Option.some_bind, Option.pure_def]
    split_ifs with h1 h2 <;>
      simp [divChecked_ne_zero hsd, expRangeChecked, divChecked_ne_zero hE']
    split_ifs with h3 <;> simp [divChecked_ne_zero hE]
  · rw [modelToStepChecked]
    split_ifs with h1 h2
    · rw [divChecked_ne_zero hR]
      simp
    · exact absurd h2.1 (not_lt.2 hA)
    · simp [rootRangeChecked, divChecked_ne_zero hE', divChecked_ne_zero hE]

/-- Whenever the checked evaluation of `stepToModel` returns a value, the
plain real-number embedding computes that same value: the two definitions
differ only on inputs where a division by zero is performed. -/
theorem stepToModelChecked_sound (step : ℝ) (c : ResolvedConfig) (x : ℝ)
    (h : stepToModelChecked step c = some x) :
    stepToModelInternal step c = x := by
  simp only [stepToModelChecked, Option.bind_eq_bind'] at h
  simp only [stepToModelInternal]
  rcases eq_or_ne c.steps 0 with hs | hs
  · rw [divChecked, if_pos hs, Option.none_bind] at h
    exact absurd h (by simp)
  · rw [divChecked_ne_zero hs, Option.some_bind] at h
    split_ifs at h ⊢ with h1 h2 h3 h4
    · exact Option.some.inj h
    · rw [divChecked_ne_zero h3.ne', Option.some_bind] at h
      exact Option.some.inj h
    · rw [Option.pure_def, Option.some_bind] at h
      exact Option.some.inj h
    · rw [divChecked_ne_zero h4.ne', Option.map_some', Option.some_bind] at h
      rcases eq_or_ne (c.steps * (1 - c.linearPercent)) 0 with hd | hd
      · rw [divChecked, if_pos hd, Option.none_bind] at h
        exact absurd h (by simp)
      · rw [divChecked_ne_zero hd, Option.some_bind] at h
        rcases eq_or_ne (c.range - c.linearAbsolute - 0) 0 with he | he
        · rw [expRangeChecked, divChecked, if_pos he, Option.map_none',
            Option.none_bind] at h
          exact absurd h (by simp)
        · rw [expRangeChecked, divChecked_ne_zero he, Option.map_some',
            Option.some_bind] at h
          have hx := Option.some.inj h
          rw [← hx]
          simp only [expRange]
    · rw [Option.pure_def, Option.some_bind] at h
      rcases eq_or_ne (c.steps * (1 - c.linearPercent)) 0 with hd | hd
      · rw [divChecked, if_pos hd, Option.none_bind] at h
        exact absurd h (by simp)
      · rw [divChecked_ne_zero hd, Option.some_bind] at h
        rcases eq_or_ne (c.range - c.linearAbsolute - 0) 0 with he | he
        · rw [expRangeChecked, divChecked, if_pos he, Option.map_none',
            Option.none_bind] at h
          exact absurd h (by simp)
        · rw [expRangeChecked, divChecked_ne_zero he, Option.map_some',
            Option.some_bind] at h
          have hx := Option.some.inj h
          rw [← hx]
          simp only [expRange]

/-- Whenever the checked evaluation of `modelToStep` returns a value, so
does the plain real-number embedding, with the same value. -/
theorem modelToStepChecked_sound (model : ℝ) (c : ResolvedConfig) (x : ℝ)
    (h : modelToStepChecked model c = some x) :
    modelToStepInternal model c = x := by
  simp only [modelToStepChecked, Option.bind_eq_bind'] at h
  simp only [modelToStepInternal]
  split_ifs at h ⊢ with h1 h2
  · rcases eq_or_ne c.range 0 with hr | hr
    · rw [divChecked, if_pos hr, Option.map_none'] at h
      exact absurd h (by simp)
    · rw [divChecked_ne_zero hr, Option.map_some'] at h
      exact Option.some.inj h
  · rw [divChecked_ne_zero h2.1.ne', Option.map_some'] at h
    exact Option.some.inj h
  · rcases eq_or_ne (c.range - c.linearAbsolute - 0) 0 with he | he
    · rw [rootRangeChecked, divChecked, if_pos he, Option.map_none',
        Option.none_bind] at h
      exact absurd h (by simp)
    · rw [rootRangeChecked, divChecked_ne_zero he, Option.map_some',
        Option.some_bind] at h
      rcases eq_or_ne (c.range - c.linearAbsolute) 0 with hr | hr
      · rw [divChecked, if_pos hr, Option.none_bind] at h
        exact absurd h (by simp)
      · rw [divChecked_ne_zero hr, Option.some_bind] at h
        have hx := Option.some.inj h
        rw [← hx, rootRange]

/-- C5 (counterexample): `steps = 0` is NOT special-cased.
`stepToModel` divides by `steps` unconditionally, so on a configuration
resolved from `steps = 0` the very first division of `stepToModelInternal`
is `0 / 0` (the clamped step over `steps`), which in JavaScript produces
`NaN`; the checked evaluation therefore aborts with `none`. -/
theorem claim5_counterexample :
    stepToModelChecked 0 (resolveConfig 0 ⟨0, 100⟩ none) = none := by
  have hc : resolveConfig 0 ⟨0, 100⟩ none =
      ⟨0, 0, 0, 0, 100, 100⟩ := by
    simp only [resolveConfig, Option.getD]
    norm_num [jsRound]
  rw [hc, stepToModelChecked]
  simp [limitBounds, divChecked]

/-- C5 (amended): wherever `linearPercent` occurs in a divisor position the
code does take a special-cased fallback (the `linearPercent > 0` guards),
and on every configuration resolved with `linearPercent = 0` from nonzero
`steps` and non-degenerate bounds both transforms perform no division by
zero, returning an ordinary number; but `steps = 0` is not special-cased
and makes `stepToModel` compute `0 / 0` (`NaN`). -/
theorem claim5_lp_zero_defined (steps : ℝ) (bounds : Bounds)
    (linear : Option LinearConfig) (step model : ℝ) (hs : steps ≠ 0)
    (hmm : bounds.min < bounds.max)
    (hlp : (resolveConfig steps bounds linear).linearPercent = 0) :
    (stepToModelChecked step (resolveConfig steps bounds linear)).isSome =
      true ∧
    (modelToStepChecked model (resolveConfig steps bounds linear)).isSome =
      true := by
  have hlp100 : (linear.getD ⟨0, 0⟩).linearPercent / 100 = 0 := hlp
  have hlpz : (linear.getD ⟨0, 0⟩).linearPercent = 0 := by
    rcases div_eq_zero_iff.1 hlp100 with h | h
    · exact h
    · norm_num at h
  have hA : (resolveConfig steps bounds linear).linearAbsolute ≤ 0 := by
    show Min.min (linear.getD ⟨0, 0⟩).maxLinear
      (jsRound (bounds.max * ((linear.getD ⟨0, 0⟩).linearPercent / 100))) ≤ 0
    rw [hlp100, mul_zero, jsRound_zero]
    exact min_le_right _ _
  have hRange : (resolveConfig steps bounds linear).range =
      bounds.max - bounds.min := by
    show (if (linear.getD ⟨0, 0⟩).linearPercent = 100 then
        (linear.getD ⟨0, 0⟩).maxLinear else bounds.max) - bounds.min =
      bounds.max - bounds.min
    rw [if_neg (by rw [hlpz]; norm_num)]
  have hRpos : 0 < (resolveConfig steps bounds linear).range := by
    rw [hRange]
    linarith
  have hR : (resolveConfig steps bounds linear).range ≠ 0 := hRpos.ne'
  have hE : (resolveConfig steps bounds linear).range -
      (resolveConfig steps bounds linear).linearAbsolute ≠ 0 :=
    (by linarith : (0 : ℝ) < (resolveConfig steps bounds linear).range -
      (resolveConfig steps bounds linear).linearAbsolute).ne'
  exact checked_isSome_aux _ hs hlp hA hR hE step model

/-- Witness for C5 on a no-linear-config configuration. -/
theorem claim5_witness :
    (stepToModelChecked 3 (resolveConfig 10 ⟨500, 1500000⟩ none)).isSome =
      true ∧
    (modelToStepChecked 777 (resolveConfig 10 ⟨500, 1500000⟩ none)).isSome =
      true :=
  claim5_lp_zero_defined 10 ⟨500, 1500000⟩ none 3 777 (by norm_num)
    (by norm_num) (by show (0 : ℝ) / 100 = 0; norm_num)

end ExponentialSlider
